import Mathlib

/-!
Verification of the Sprite2 kernel bootstrap unit `kernel/init/init_main.c`:
the boot-phase sequencer in `main`, the daemon-spawning protocol, and the
boot-argument reconstruction / Init-handoff procedure in `Init`.
Bytes are modelled as `Nat`, buffers as `List Nat`, and the fragmented
boot-argument buffer as a list of fragments (each a list of non-NUL bytes,
laid out back-to-back with a terminating NUL after each fragment, exactly
as `Mach_GetBootArgs` leaves them in `argBuffer`).
-/

/-- Byte values of a string constant, as ASCII codes. -/
def strBytes (s : String) : List Nat := s.toList.map Char.toNat

example : strBytes "quiet" = [113, 117, 105, 101, 116] := by decide

/-- Contents of `argBuffer` after `Mach_GetBootArgs` has stored the fragments
back-to-back, each fragment followed by its terminating NUL byte. -/
def bootBuffer : List (List Nat) → List Nat
  | [] => []
  | f :: rest => f ++ 0 :: bootBuffer rest

/-- C `strlen` applied at byte offset `off` of buffer `buf`: the number of
bytes before the first NUL. -/
def strlen (buf : List Nat) (off : Nat) : Nat :=
  ((buf.drop off).takeWhile (fun b => b != 0)).length

/-- Byte offset, relative to the base of `argBuffer`, of the pointer that
`Mach_GetBootArgs` stored for the LAST fragment (`initArgs[argc+1]` in the
source). -/
def lastFragOffset : List (List Nat) → Nat
  | [] => 0
  | [_] => 0
  | f :: rest => f.length + 1 + lastFragOffset rest

/-- The value `argLength` computed by `Init` (init_main.c lines 201-204):
for a positive fragment count it is the last fragment's pointer plus the
C string length at that pointer plus one, minus the buffer base; for a
zero fragment count it is zero. -/
def argLengthOf (frags : List (List Nat)) : Nat :=
  if frags.isEmpty then 0
  else lastFragOffset frags + strlen (bootBuffer frags) (lastFragOffset frags) + 1

/-- Modelled from the spec wording of section 4.4 step 1: the byte offset
spanning from the first fragment's start (the buffer base) to the end of the
last fragment, inclusive of its terminating NUL.  Stated with the last
fragment's own length, to be compared with `argLengthOf`, which uses the
C strlen at the stored pointer. -/
def specArgLength (frags : List (List Nat)) : Nat :=
  if frags.isEmpty then 0
  else lastFragOffset frags + (frags.getLastD []).length + 1

/-- Well-formedness of the monitor-supplied fragments: a fragment is a
NUL-terminated string, so its own bytes are non-NUL. -/
def fragsWellFormed (frags : List (List Nat)) : Prop :=
  ∀ f ∈ frags, ¬ (0 ∈ f)

instance (frags : List (List Nat)) : Decidable (fragsWellFormed frags) := by
  unfold fragsWellFormed; infer_instance

lemma argLengthOf_cons (f : List Nat) (rest : List (List Nat)) :
    argLengthOf (f :: rest) =
      lastFragOffset (f :: rest) +
        strlen (bootBuffer (f :: rest)) (lastFragOffset (f :: rest)) + 1 := rfl

lemma specArgLength_cons (f : List Nat) (rest : List (List Nat)) :
    specArgLength (f :: rest) =
      lastFragOffset (f :: rest) + ((f :: rest).getLastD []).length + 1 := rfl

lemma takeWhile_append_nul (f t : List Nat) (hf : ¬ (0 ∈ f)) :
    (f ++ 0 :: t).takeWhile (fun b => b != 0) = f := by
  induction f with
  | nil => rfl
  | cons a f ih =>
    have ha : a ≠ 0 := fun h => hf (by simp [h])
    have hf' : ¬ (0 ∈ f) := fun h => hf (by simp [h])
    simp only [List.cons_append, List.takeWhile_cons]
    simp [ha, ih hf']

lemma drop_bootBuffer_head (f t : List Nat) (k : Nat) :
    (f ++ 0 :: t).drop (f.length + 1 + k) = t.drop k := by
  induction f with
  | nil => simp [Nat.add_comm]
  | cons a f ih =>
    have : (a :: f).length + 1 + k = (f.length + 1 + k) + 1 := by
      rw [List.length_cons]; omega
    simp only [this, List.cons_append, List.drop_succ_cons]
    exact ih

lemma strlen_bootBuffer_cons (f g : List Nat) (t : List (List Nat)) :
    strlen (bootBuffer (f :: g :: t)) (lastFragOffset (f :: g :: t)) =
      strlen (bootBuffer (g :: t)) (lastFragOffset (g :: t)) := by
  show strlen (f ++ 0 :: bootBuffer (g :: t))
      (f.length + 1 + lastFragOffset (g :: t)) = _
  unfold strlen
  rw [drop_bootBuffer_head]

/-- Under the boundary contract, `argLength` as computed by `Init` is exactly
the total number of bytes the fragments occupy in `argBuffer`, terminating
NULs included. -/
lemma argLength_eq_length (frags : List (List Nat)) (h : fragsWellFormed frags) :
    argLengthOf frags = (bootBuffer frags).length := by
  induction frags with
  | nil => simp [argLengthOf, bootBuffer]
  | cons f rest ih =>
    cases rest with
    | nil =>
      have hf : ¬ (0 ∈ f) := h f (by simp)
      rw [argLengthOf_cons]
      have h0 : lastFragOffset [f] = 0 := rfl
      have hb : bootBuffer [f] = f ++ 0 :: [] := rfl
      rw [h0, hb]
      unfold strlen
      rw [List.drop_zero, takeWhile_append_nul f [] hf]
      simp
    | cons g t =>
      have hrest : fragsWellFormed (g :: t) := fun x hx => h x (by simp [hx])
      have ih' := ih hrest
      rw [argLengthOf_cons] at ih' ⊢
      rw [strlen_bootBuffer_cons]
      have hoff : lastFragOffset (f :: g :: t) =
          f.length + 1 + lastFragOffset (g :: t) := rfl
      have hlen : (bootBuffer (f :: g :: t)).length =
          f.length + 1 + (bootBuffer (g :: t)).length := by
        show (f ++ 0 :: bootBuffer (g :: t)).length = _
        simp [Nat.succ_add]; omega
      rw [hoff, hlen]
      omega

/-- The spec's phrasing of the length computation also equals the total byte
count of the laid-out fragments (no well-formedness needed: it is plain
arithmetic over the layout). -/
lemma specArgLength_eq_length (frags : List (List Nat)) :
    specArgLength frags = (bootBuffer frags).length := by
  induction frags with
  | nil => simp [specArgLength, bootBuffer]
  | cons f rest ih =>
    cases rest with
    | nil =>
      rw [specArgLength_cons]
      have h0 : lastFragOffset [f] = 0 := rfl
      have hb : bootBuffer [f] = f ++ 0 :: [] := rfl
      rw [h0, hb]
      simp
    | cons g t =>
      rw [specArgLength_cons] at ih ⊢
      have hoff : lastFragOffset (f :: g :: t) =
          f.length + 1 + lastFragOffset (g :: t) := rfl
      have hlast : (f :: g :: t).getLastD [] = (g :: t).getLastD [] := by
        simp [List.getLastD]
      have hlen : (bootBuffer (f :: g :: t)).length =
          f.length + 1 + (bootBuffer (g :: t)).length := by
        show (f ++ 0 :: bootBuffer (g :: t)).length = _
        simp [Nat.succ_add]; omega
      rw [hoff, hlast, hlen]
      omega

/-- Contents of the 103-byte `bootCommand` buffer after `Init`'s
reconstruction (init_main.c lines 199, 206-215): `bzero` clears all 103
bytes, the copy loop writes the first `argLength` bytes translating every
NUL byte of `argBuffer` to a space (ASCII 32), and a NUL is stored at index
`argLength`. -/
def bootCommand (frags : List (List Nat)) : List Nat :=
  (List.range 103).map (fun i =>
    if i < argLengthOf frags then
      (if (bootBuffer frags).getD i 0 = 0 then 32 else (bootBuffer frags).getD i 0)
    else 0)

/-- The C string held in `bootCommand`: its bytes up to the first NUL. -/
def cmdString (frags : List (List Nat)) : List Nat :=
  (bootCommand frags).takeWhile (fun b => b != 0)

/-- The two-fragment example of the spec: fragments stored back-to-back with
NUL separators. -/
def exampleFrags : List (List Nat) := [strBytes "root=/dev/sda1", strBytes "quiet"]

example : argLengthOf exampleFrags = 21 := by decide
example : cmdString exampleFrags = strBytes "root=/dev/sda1 quiet " := by decide

/-- Possible contents of one slot of the 10-pointer array `initArgs`. -/
inductive Slot where
  | uninit : Slot
  | nil : Slot
  | str : List Nat → Slot
  | frag : Nat → Slot
  | cmd : Slot
deriving DecidableEq, Repr

/-- Bytes of the literal flag string passed in slot 1. -/
def bFlag : List Nat := strBytes "-b"

/-- Slot contents right after `Mach_GetBootArgs` returned `argc` fragments:
the fragment pointers occupy slots 2 .. argc+1 (the call receives
`&initArgs[2]`), every other slot is still uninitialized. -/
def initArgsAfterParse (argc j : Nat) : Slot :=
  if 2 ≤ j ∧ j < argc + 2 then Slot.frag (j - 2) else Slot.uninit

/-- Slot contents after the vector-building block of `Init` (init_main.c
lines 206-219), slot 0 excepted (it is filled at exec time).  When
`argLength > 0` the code stores the flag at slot 1, the reconstructed
command pointer at slot 2 and the NIL terminator at slot `argc + 2`;
otherwise it stores NIL at slot 1.  Later stores win over earlier ones. -/
def initArgsVec (argc argLength j : Nat) : Slot :=
  if 0 < argLength then
    if j = argc + 2 then Slot.nil
    else if j = 2 then Slot.cmd
    else if j = 1 then Slot.str bFlag
    else initArgsAfterParse argc j
  else
    if j = 1 then Slot.nil
    else initArgsAfterParse argc j

/-- Slot contents at the moment of a `Proc_KernExec` call, with slot 0 set
to the path being exec'd (init_main.c lines 222, 232). -/
def initArgsFinal (path : List Nat) (argc argLength j : Nat) : Slot :=
  if j = 0 then Slot.str path else initArgsVec argc argLength j

example : initArgsVec 2 21 1 = Slot.str bFlag := by decide
example : initArgsVec 2 21 2 = Slot.cmd := by decide
example : initArgsVec 2 21 3 = Slot.frag 1 := by decide
example : initArgsVec 2 21 4 = Slot.nil := by decide

/-- Indices of every store `Init` performs into the 10-slot `initArgs`
array: `Mach_GetBootArgs` fills slots 2 .. argc+1; then, when
`argLength > 0`, slots 1, 2 and argc+2 are stored, else slot 1; slot 0 is
stored before each exec attempt. -/
def initArgsStoreIdxs (argc argLength : Nat) : List Nat :=
  (List.range argc).map (fun i => i + 2) ++
    (if 0 < argLength then [1, 2, argc + 2] else [1]) ++ [0]

/-- Indices of every byte store the reconstruction block performs into
`bootCommand` (the copy loop plus the NUL store), executed only when
`argLength > 0`. -/
def reconWriteIdxs (n : Nat) : List Nat :=
  if 0 < n then List.range n ++ [n] else []

/-- One step of the bootstrap sequence in `main` (init_main.c lines 40-185),
one constructor per collaborator call in source order. -/
inductive Step where
  | mainInitVars | machInit | syncInit | dbgInit | sysInit
  | vmBootInit | devInit | dumpInit | procInit | syncLockStatInit
  | timerInit | sigInit | schedInit | fsBin | netBin | vmInit
  | procInitMainProc | netInit | netRouteInit | procServerInit
  | recovInit | rpcInit | devConfig | profInit | enableIntr
  | fsrecovInitState | fsrecovDirOpInit | schedTimeTicks | profStart
  | rpcStart | fsInit | fsProcInit
  | callFuncVmClock | callFuncVmOpenSwapDirectory | callFuncFsutilSyncProc
  | rpcCreateServers | newProcRpcDaemon | serverProcCreate | newProcRecovProc
  | procMigInit | mainHookRoutine | newProcInit | syncWaitTime | procExitMain
deriving DecidableEq, Repr

/-- The steps of `main` in the order the source executes them. -/
def bootSteps : List Step :=
  [Step.mainInitVars, Step.machInit, Step.syncInit, Step.dbgInit, Step.sysInit,
   Step.vmBootInit, Step.devInit, Step.dumpInit, Step.procInit,
   Step.syncLockStatInit, Step.timerInit, Step.sigInit, Step.schedInit,
   Step.fsBin, Step.netBin, Step.vmInit, Step.procInitMainProc, Step.netInit,
   Step.netRouteInit, Step.procServerInit, Step.recovInit, Step.rpcInit,
   Step.devConfig, Step.profInit, Step.enableIntr, Step.fsrecovInitState,
   Step.fsrecovDirOpInit, Step.schedTimeTicks, Step.profStart, Step.rpcStart,
   Step.fsInit, Step.fsProcInit, Step.callFuncVmClock,
   Step.callFuncVmOpenSwapDirectory, Step.callFuncFsutilSyncProc,
   Step.rpcCreateServers, Step.newProcRpcDaemon, Step.serverProcCreate,
   Step.newProcRecovProc, Step.procMigInit, Step.mainHookRoutine,
   Step.newProcInit, Step.syncWaitTime, Step.procExitMain]

/-- Step `a` comes strictly before step `b` in the boot sequence. -/
def stepPrecedes (a b : Step) : Prop :=
  bootSteps.indexOf a < bootSteps.indexOf b ∧ b ∈ bootSteps

instance (a b : Step) : Decidable (stepPrecedes a b) := by
  unfold stepPrecedes; infer_instance

/-- Modelled from the spec: each required phase's collaborator call either
succeeds or fails fatally (section 4.2: any non-success return halts the
boot).  `invoked fails l s` tells whether step `s` is ever entered when the
steps of `l` run in order and a failing step stops the sequence right after
it returns. -/
def invoked (fails : Step → Bool) : List Step → Step → Bool
  | [], _ => false
  | t :: rest, s =>
    if t = s then true
    else if fails t then false
    else invoked fails rest s

lemma invoked_false_of_fails (fails : Step → Bool) (s t : Step) :
    ∀ l : List Step, fails s = true →
      l.indexOf s < l.indexOf t → t ∈ l → invoked fails l t = false := by
  intro l
  induction l with
  | nil => intro _ _ h; exact absurd h (List.not_mem_nil t)
  | cons u rest ih =>
    intro hs hlt hmem
    by_cases hut : u = t
    · subst hut
      rw [List.indexOf_cons_self] at hlt
      exact absurd hlt (Nat.not_lt_zero _)
    · have hmem' : t ∈ rest := by
        cases hmem with
        | head => exact absurd rfl hut
        | tail _ h => exact h
      by_cases hfu : fails u = true
      · simp [invoked, hut, hfu]
      · have hus : u ≠ s := fun h => by rw [h, hs] at hfu; exact hfu rfl
        have hlt' : rest.indexOf s < rest.indexOf t := by
          rw [List.indexOf_cons_ne _ hus, List.indexOf_cons_ne _ hut] at hlt
          omega
        simp [invoked, hut, hfu, ih hs hlt' hmem']

/-- Entry points handed to process-creation primitives in `main` and `Init`. -/
inductive Daemon where
  | vmClock | vmOpenSwapDirectory | fsutilSyncProc
  | rpcDaemon | recovProc | initProc
deriving DecidableEq, Repr

/-- One process-creation event of the daemon-spawning phase:
a `Proc_CallFunc` enqueue on the deferred-work queue, one `Rpc_CreateServer`
call, a dedicated `Proc_NewProc` creation, or the one
`Proc_ServerProcCreate` batch with its requested worker count. -/
inductive SpawnEvent where
  | callFunc : Daemon → SpawnEvent
  | rpcServer : SpawnEvent
  | newProc : Daemon → SpawnEvent
  | serverProcs : Nat → SpawnEvent
deriving DecidableEq, Repr

/-- Whether an event is the worker-batch creation call. -/
def isServerBatch : SpawnEvent → Bool
  | SpawnEvent.serverProcs _ => true
  | _ => false

/-- The process-creation events of `main` in source order (init_main.c lines
146-182), with `n` the value of `main_NumRpcServers`, `c` the value of
`FSCACHE_MAX_CLEANER_PROCS` and `p` the value of `VM_MAX_PAGE_OUT_PROCS`.
The `for` loop over `Rpc_CreateServer` is guarded by `main_NumRpcServers > 0`
and runs `main_NumRpcServers` times. -/
def spawnTrace (n c p : Nat) : List SpawnEvent :=
  [SpawnEvent.callFunc Daemon.vmClock,
   SpawnEvent.callFunc Daemon.vmOpenSwapDirectory,
   SpawnEvent.callFunc Daemon.fsutilSyncProc]
  ++ (if 0 < n then List.replicate n SpawnEvent.rpcServer else [])
  ++ [SpawnEvent.newProc Daemon.rpcDaemon,
      SpawnEvent.serverProcs (c + p),
      SpawnEvent.newProc Daemon.recovProc,
      SpawnEvent.newProc Daemon.initProc]

/-- The `SUCCESS` return status of the Sprite kernel interfaces. -/
def SUCCESS : Nat := 0

/-- Exit status passed to `Proc_Exit` when the long idle wait of `main`
expires (init_main.c line 185). -/
def mainExitStatus : Nat := 0

/-- Exit status passed to `Proc_Exit` when `Init` has exhausted every exec
attempt (init_main.c line 235). -/
def initFailExitStatus : Nat := 1

/-- The two binaries `Init` may exec: the configured alternate init and the
canonical `INIT` path. -/
inductive PathId where
  | altPath | initPath
deriving DecidableEq, Repr

/-- Log lines `Init` can print: the pre-exec announcement for the alternate
init, an exec-failure report with its status, and the open-check failure
report with its status. -/
inductive LogMsg where
  | execing : PathId → LogMsg
  | execFailed : PathId → Nat → LogMsg
  | openFailed : Nat → LogMsg
deriving DecidableEq, Repr

/-- Terminal state of the Init-handoff procedure: either some binary was
successfully exec'd (control left the bootstrap code), or the bootstrap
process exited with the given status. -/
inductive Outcome where
  | launched : PathId → Outcome
  | halted : Nat → Outcome
deriving DecidableEq, Repr

/-- Environment of one run of `Init`: whether `main_AltInit` is non-zero,
and the behavior of the three fallible collaborator calls.  An exec status
of `none` means `Proc_KernExec` took control (it does not return on
success); `some st` means it returned with failure status `st`. -/
structure InitEnv where
  altInit : Bool
  altExecStatus : Option Nat
  openStatus : Nat
  canonExecStatus : Option Nat
deriving DecidableEq, Repr

/-- Result of one run of `Init`: the printed log, the exec attempts made in
order, and the terminal outcome. -/
structure InitRun where
  log : List LogMsg
  attempts : List PathId
  outcome : Outcome
deriving DecidableEq, Repr

/-- The canonical-init stage of `Init` (init_main.c lines 228-235): open
check on `INIT` (failure only logged), then exec of `INIT`, then
`Proc_Exit(1)` when the exec returned. -/
def runCanon (env : InitEnv) (log0 : List LogMsg) (att0 : List PathId) : InitRun :=
  let log1 :=
    if env.openStatus ≠ SUCCESS then log0 ++ [LogMsg.openFailed env.openStatus]
    else log0
  match env.canonExecStatus with
  | none =>
    { log := log1, attempts := att0 ++ [PathId.initPath],
      outcome := Outcome.launched PathId.initPath }
  | some st =>
    { log := log1 ++ [LogMsg.execFailed PathId.initPath st],
      attempts := att0 ++ [PathId.initPath],
      outcome := Outcome.halted initFailExitStatus }

/-- The Init-handoff procedure (init_main.c lines 221-235): optional
alternate-init exec attempt when `main_AltInit` is non-zero, then the
canonical stage. -/
def runInit (env : InitEnv) : InitRun :=
  if env.altInit then
    match env.altExecStatus with
    | none =>
      { log := [LogMsg.execing PathId.altPath], attempts := [PathId.altPath],
        outcome := Outcome.launched PathId.altPath }
    | some st =>
      runCanon env
        [LogMsg.execing PathId.altPath, LogMsg.execFailed PathId.altPath st]
        [PathId.altPath]
  else runCanon env [] []

lemma bootCommand_getD (frags : List (List Nat)) (i : Nat) (h : i < 103) :
    (bootCommand frags).getD i 0 =
      (if i < argLengthOf frags then
        (if (bootBuffer frags).getD i 0 = 0 then 32 else (bootBuffer frags).getD i 0)
       else 0) := by
  unfold bootCommand
  rw [List.getD_eq_getElem _ _ (by simpa using h)]
  simp [h]

/-- C1, counterexample: the reconstructed command line for the fragments
root=/dev/sda1 and quiet is NOT the 20-byte string the claim demands,
because the copy loop also turns the LAST fragment's terminating NUL
(which lies inside the computed length) into a space. -/
theorem init_cmdline_example_ne :
    cmdString exampleFrags ≠ strBytes "root=/dev/sda1 quiet" := by decide

/-- C1, amended: for every well-formed boot-arg buffer within the 100-byte
contract, the reconstruction copies byte-for-byte from the fragment buffer
turning every NUL in the copied range into a space — including the last
fragment's terminating NUL — and for the two-fragment example the resulting
command line is root=/dev/sda1 quiet followed by one trailing space. -/
theorem init_cmdline_amended :
    (∀ frags : List (List Nat), fragsWellFormed frags →
      (bootBuffer frags).length ≤ 100 →
      ∀ i, i < argLengthOf frags →
        (bootCommand frags).getD i 0 =
          (if (bootBuffer frags).getD i 0 = 0 then 32
           else (bootBuffer frags).getD i 0)) ∧
    cmdString exampleFrags = strBytes "root=/dev/sda1 quiet " := by
  constructor
  · intro frags hwf hlen i hi
    have hal : argLengthOf frags = (bootBuffer frags).length :=
      argLength_eq_length frags hwf
    have h103 : i < 103 := by omega
    rw [bootCommand_getD frags i h103, if_pos hi]
  · decide

/-- C1, witness for the amended theorem: at index 14 of the example buffer
(the NUL separating the two fragments) the reconstructed byte is a space. -/
theorem init_cmdline_amended_witness :
    (bootCommand exampleFrags).getD 14 0 = 32 :=
  (init_cmdline_amended.1 exampleFrags (by decide) (by decide) 14
    (by decide)).trans (by decide)

/-- C2, counterexample: for the two-fragment example (argc = 2,
argLength = 21) slot 3 of the argument vector is NOT the terminator — it
still holds the stale pointer to the second fragment installed by
`Mach_GetBootArgs` — and the NIL terminator sits at slot 4 instead. -/
theorem init_argvec_slot3 :
    initArgsVec 2 21 3 = Slot.frag 1 ∧ initArgsVec 2 21 3 ≠ Slot.nil ∧
      initArgsVec 2 21 4 = Slot.nil := by decide

/-- C2, amended: when a reconstructed command line exists, slot 1 holds the
literal -b flag, slot 2 the reconstructed command line, the NIL terminator
is stored at slot argc+2 (not one past the last real argument), and every
slot from 3 to argc+1 still holds the fragment pointer left by the boot-arg
parse, so those leftover pointers are live arguments before the
terminator. -/
theorem init_argvec_amended (argc argLength : Nat)
    (h1 : 1 ≤ argc) (h2 : 0 < argLength) :
    initArgsVec argc argLength 1 = Slot.str bFlag ∧
    initArgsVec argc argLength 2 = Slot.cmd ∧
    initArgsVec argc argLength (argc + 2) = Slot.nil ∧
    (∀ j, 3 ≤ j → j ≤ argc + 1 →
      initArgsVec argc argLength j = Slot.frag (j - 2)) := by
  refine ⟨?_, ?_, ?_, ?_⟩
  · unfold initArgsVec
    rw [if_pos h2, if_neg (by omega : ¬ (1 = argc + 2)),
      if_neg (by omega : ¬ (1 = 2)), if_pos rfl]
  · unfold initArgsVec
    rw [if_pos h2, if_neg (by omega : ¬ (2 = argc + 2)), if_pos rfl]
  · unfold initArgsVec
    rw [if_pos h2, if_pos rfl]
  · intro j h3 h4
    unfold initArgsVec initArgsAfterParse
    rw [if_pos h2, if_neg (by omega : ¬ (j = argc + 2)),
      if_neg (by omega : ¬ (j = 2)), if_neg (by omega : ¬ (j = 1)),
      if_pos (by omega : 2 ≤ j ∧ j < argc + 2)]

/-- C2, witness: the amended vector layout at the two-fragment example. -/
theorem init_argvec_amended_witness :
    initArgsVec 2 21 1 = Slot.str bFlag ∧ initArgsVec 2 21 (2 + 2) = Slot.nil ∧
      initArgsVec 2 21 3 = Slot.frag (3 - 2) := by
  obtain ⟨a, _, c, d⟩ := init_argvec_amended 2 21 (by decide) (by decide)
  exact ⟨a, c, d 3 (by decide) (by decide)⟩

/-- C3 (confirmed): for a well-formed fragment buffer, the `argLength`
computed by `Init` equals the spec's byte offset from the buffer base to the
end of the last fragment inclusive of its terminating NUL; and for a zero
fragment count the length is zero, no reconstruction happens (the command
buffer holds the empty string), slot 1 of the vector is the NIL terminator
right after the path in slot 0, and no slot holds the -b flag. -/
theorem init_arglength_correct (frags : List (List Nat))
    (hwf : fragsWellFormed frags) :
    argLengthOf frags = specArgLength frags ∧
    argLengthOf ([] : List (List Nat)) = 0 ∧
    initArgsVec 0 (argLengthOf []) 1 = Slot.nil ∧
    (∀ j, initArgsVec 0 (argLengthOf []) j ≠ Slot.str bFlag) ∧
    (∀ path, initArgsFinal path 0 (argLengthOf []) 0 = Slot.str path) ∧
    cmdString ([] : List (List Nat)) = [] := by
  refine ⟨?_, by decide, by decide, ?_, fun path => rfl, by decide⟩
  · rw [argLength_eq_length frags hwf, specArgLength_eq_length]
  · intro j
    show initArgsVec 0 0 j ≠ Slot.str bFlag
    unfold initArgsVec initArgsAfterParse
    rw [if_neg (by omega : ¬ ((0:Nat) < 0))]
    by_cases hj : j = 1
    · rw [if_pos hj]; intro h; cases h
    · rw [if_neg hj, if_neg (by omega : ¬ (2 ≤ j ∧ j < 0 + 2))]
      intro h; cases h

/-- C3, witness: the equality at the two-fragment example, where both sides
evaluate to 21. -/
theorem init_arglength_correct_witness :
    argLengthOf exampleFrags = specArgLength exampleFrags :=
  (init_arglength_correct exampleFrags (by decide)).1

/-- C9 (code bug): with the maximum fragment count 8 allowed by the
`Mach_GetBootArgs(8, 100, ...)` call, the NIL-terminator store goes to slot
argc + 2 = 10 of the 10-slot `initArgs` array — one past its end — so not
every store lands within the vector's 10 slots. -/
theorem init_argvec_overflow :
    (¬ (∀ j ∈ initArgsStoreIdxs 8 16, j < 10)) ∧
      10 ∈ initArgsStoreIdxs 8 16 := by decide

/-- C4 (confirmed, spec-modelled failure semantics): if any phase's
collaborator call returns non-success, the boot sequence halts right there,
so no step that comes later in the sequence is ever invoked. -/
theorem boot_fatal_short_circuit (fails : Step → Bool) (s t : Step)
    (hf : fails s = true) (hp : stepPrecedes s t) :
    invoked fails bootSteps t = false :=
  invoked_false_of_fails fails s t bootSteps hf hp.1 hp.2

/-- C4, witness: with a failing device-initialization phase, the
process-table initialization that follows it is never invoked. -/
theorem boot_fatal_short_circuit_witness :
    invoked (fun u => u == Step.devInit) bootSteps Step.procInit = false :=
  boot_fatal_short_circuit (fun u => u == Step.devInit) Step.devInit
    Step.procInit (by decide) (by decide)

/-- C5 (confirmed): in the boot sequence of `main`, bootstrap VM
initialization precedes device initialization, process-table initialization
precedes every daemon process creation, scheduler initialization precedes
the time-tick calibration, full VM initialization precedes network
initialization, and RPC initialization precedes the RPC boot-timestamp
call. -/
theorem boot_phase_ordering :
    stepPrecedes Step.vmBootInit Step.devInit ∧
    stepPrecedes Step.procInit Step.callFuncVmClock ∧
    stepPrecedes Step.procInit Step.callFuncVmOpenSwapDirectory ∧
    stepPrecedes Step.procInit Step.callFuncFsutilSyncProc ∧
    stepPrecedes Step.procInit Step.rpcCreateServers ∧
    stepPrecedes Step.procInit Step.newProcRpcDaemon ∧
    stepPrecedes Step.procInit Step.serverProcCreate ∧
    stepPrecedes Step.procInit Step.newProcRecovProc ∧
    stepPrecedes Step.procInit Step.newProcInit ∧
    stepPrecedes Step.schedInit Step.schedTimeTicks ∧
    stepPrecedes Step.vmInit Step.netInit ∧
    stepPrecedes Step.rpcInit Step.rpcStart := by decide

lemma guard_replicate (n : Nat) :
    (if 0 < n then List.replicate n SpawnEvent.rpcServer else []) =
      List.replicate n SpawnEvent.rpcServer := by
  by_cases h : 0 < n
  · rw [if_pos h]
  · rw [if_neg h]
    have h0 : n = 0 := by omega
    rw [h0]
    rfl

lemma takeWhile_replicate_rpc (n : Nat) (l : List SpawnEvent) :
    ((List.replicate n SpawnEvent.rpcServer) ++ l).takeWhile
        (fun e => e != SpawnEvent.newProc Daemon.rpcDaemon) =
      List.replicate n SpawnEvent.rpcServer ++
        l.takeWhile (fun e => e != SpawnEvent.newProc Daemon.rpcDaemon) := by
  induction n with
  | zero => rfl
  | succ n ih =>
    rw [List.replicate_succ]
    simp only [List.cons_append, List.takeWhile_cons]
    rw [show (SpawnEvent.rpcServer != SpawnEvent.newProc Daemon.rpcDaemon) = true
      from rfl]
    simp only [if_true, ih]

lemma count_rpc_replicate (a : SpawnEvent) (n : Nat) :
    (List.replicate n SpawnEvent.rpcServer).count a =
      if SpawnEvent.rpcServer == a then n else 0 :=
  List.count_replicate a SpawnEvent.rpcServer n

lemma countP_batch_replicate (n : Nat) :
    (List.replicate n SpawnEvent.rpcServer).countP isServerBatch = 0 := by
  induction n with
  | zero => rfl
  | succ m ih =>
    have h : isServerBatch SpawnEvent.rpcServer = false := rfl
    rw [List.replicate_succ, List.countP_cons]
    rw [h]
    simp [ih]

/-- C6 (confirmed): the daemon-spawning phase creates exactly
`main_NumRpcServers` RPC server processes, all of them before the single
`Rpc_Daemon` process; one worker batch of exactly
FSCACHE_MAX_CLEANER_PROCS + VM_MAX_PAGE_OUT_PROCS processes (5 when those
constants are 3 and 2); and exactly one `Recov_Proc` recovery monitor via
direct `Proc_NewProc` creation, never via the `Proc_CallFunc` deferred-work
queue. -/
theorem daemon_spawn_counts (n c p : Nat) :
    (spawnTrace n c p).count SpawnEvent.rpcServer = n ∧
    ((spawnTrace n c p).takeWhile
        (fun e => e != SpawnEvent.newProc Daemon.rpcDaemon)).count
      SpawnEvent.rpcServer = n ∧
    (spawnTrace n c p).count (SpawnEvent.newProc Daemon.rpcDaemon) = 1 ∧
    (spawnTrace n c p).countP isServerBatch = 1 ∧
    SpawnEvent.serverProcs (c + p) ∈ spawnTrace n c p ∧
    SpawnEvent.serverProcs 5 ∈ spawnTrace n 3 2 ∧
    (spawnTrace n c p).count (SpawnEvent.newProc Daemon.recovProc) = 1 ∧
    (spawnTrace n c p).count (SpawnEvent.callFunc Daemon.recovProc) = 0 := by
  unfold spawnTrace
  rw [guard_replicate]
  refine ⟨?_, ?_, ?_, ?_, ?_, ?_, ?_, ?_⟩
  · rw [List.count_append, List.count_append, count_rpc_replicate]
    simp [List.count_cons]
  · simp only [List.cons_append, List.takeWhile_cons]
    rw [show (SpawnEvent.callFunc Daemon.vmClock !=
        SpawnEvent.newProc Daemon.rpcDaemon) = true from rfl,
      show (SpawnEvent.callFunc Daemon.vmOpenSwapDirectory !=
        SpawnEvent.newProc Daemon.rpcDaemon) = true from rfl,
      show (SpawnEvent.callFunc Daemon.fsutilSyncProc !=
        SpawnEvent.newProc Daemon.rpcDaemon) = true from rfl]
    simp only [if_true, List.nil_append]
    rw [takeWhile_replicate_rpc]
    have hstop : (List.takeWhile
        (fun e => e != SpawnEvent.newProc Daemon.rpcDaemon)
        [SpawnEvent.newProc Daemon.rpcDaemon, SpawnEvent.serverProcs (c + p),
         SpawnEvent.newProc Daemon.recovProc,
         SpawnEvent.newProc Daemon.initProc]) = [] := rfl
    rw [hstop]
    rw [List.count_cons_of_ne (by decide), List.count_cons_of_ne (by decide),
      List.count_cons_of_ne (by decide), List.count_append,
      count_rpc_replicate]
    simp
  · rw [List.count_append, List.count_append, count_rpc_replicate]
    simp [List.count_cons]
  · rw [List.countP_append, List.countP_append, countP_batch_replicate]
    simp [List.countP_cons, isServerBatch]
  · simp
  · simp
  · rw [List.count_append, List.count_append, count_rpc_replicate]
    simp [List.count_cons]
  · rw [List.count_append, List.count_append, count_rpc_replicate]
    simp [List.count_cons]

lemma runCanon_mem_attempts (env : InitEnv) (l : List LogMsg) (a : List PathId) :
    PathId.initPath ∈ (runCanon env l a).attempts := by
  unfold runCanon
  cases env.canonExecStatus <;> simp

lemma runCanon_mem_log (env : InitEnv) (l : List LogMsg) (a : List PathId)
    (ho : env.openStatus ≠ SUCCESS) :
    LogMsg.openFailed env.openStatus ∈ (runCanon env l a).log := by
  unfold runCanon
  cases env.canonExecStatus <;> simp [ho]

/-- C7 (confirmed): when the alternate-init exec and the canonical-init exec
both fail, `Init` terminates the bootstrap process with the fixed non-zero
status 1 — distinct from the status 0 used when the long idle wait of
`main` expires — and the log shows the alternate failure strictly before
the canonical failure. -/
theorem init_exhaustion_halts (env : InitEnv) (s1 s2 : Nat)
    (ha : env.altInit = true) (h1 : env.altExecStatus = some s1)
    (h2 : env.canonExecStatus = some s2) :
    (runInit env).outcome = Outcome.halted initFailExitStatus ∧
    initFailExitStatus ≠ mainExitStatus ∧
    (∃ mid, (runInit env).log =
      [LogMsg.execing PathId.altPath, LogMsg.execFailed PathId.altPath s1] ++
        mid ++ [LogMsg.execFailed PathId.initPath s2]) := by
  have hrun : runInit env = runCanon env
      [LogMsg.execing PathId.altPath, LogMsg.execFailed PathId.altPath s1]
      [PathId.altPath] := by
    unfold runInit
    rw [ha, h1]
    rfl
  by_cases ho : env.openStatus ≠ SUCCESS
  · refine ⟨?_, by decide, ⟨[LogMsg.openFailed env.openStatus], ?_⟩⟩ <;>
      rw [hrun] <;> unfold runCanon <;> rw [h2] <;> simp [ho]
  · refine ⟨?_, by decide, ⟨[], ?_⟩⟩ <;>
      rw [hrun] <;> unfold runCanon <;> rw [h2] <;> simp [ho]

/-- C7, witness: a concrete run with both execs failing exits with status 1. -/
theorem init_exhaustion_halts_witness :
    (runInit ⟨true, some 5, 0, some 7⟩).outcome =
      Outcome.halted initFailExitStatus :=
  (init_exhaustion_halts ⟨true, some 5, 0, some 7⟩ 5 7 rfl rfl rfl).1

/-- C8 (confirmed): a failed alternate-init exec is non-fatal — control
falls through and the canonical-init exec is still attempted — and a failed
canonical-init open check is only logged and never prevents the canonical
exec attempt. -/
theorem init_fallthrough (env : InitEnv) (s1 : Nat)
    (h : env.altInit = false ∨ env.altExecStatus = some s1) :
    PathId.initPath ∈ (runInit env).attempts ∧
    (env.openStatus ≠ SUCCESS →
      LogMsg.openFailed env.openStatus ∈ (runInit env).log) := by
  by_cases hai : env.altInit = true
  · cases h with
    | inl hfalse => rw [hfalse] at hai; exact Bool.noConfusion hai
    | inr hsome =>
      have hrun : runInit env = runCanon env
          [LogMsg.execing PathId.altPath, LogMsg.execFailed PathId.altPath s1]
          [PathId.altPath] := by
        unfold runInit
        rw [hai, hsome]
        rfl
      rw [hrun]
      exact ⟨runCanon_mem_attempts env _ _, fun ho => runCanon_mem_log env _ _ ho⟩
  · have hfalse : env.altInit = false := by
      revert hai; cases env.altInit <;> simp
    have hrun : runInit env = runCanon env [] [] := by
      unfold runInit
      rw [hfalse]
      rfl
    rw [hrun]
    exact ⟨runCanon_mem_attempts env _ _, fun ho => runCanon_mem_log env _ _ ho⟩

/-- C8, witness: with the alternate exec failing and the open check failing,
the canonical exec is still attempted and the open failure is logged. -/
theorem init_fallthrough_witness :
    PathId.initPath ∈ (runInit ⟨true, some 3, 9, some 4⟩).attempts ∧
      LogMsg.openFailed 9 ∈ (runInit ⟨true, some 3, 9, some 4⟩).log :=
  ⟨(init_fallthrough ⟨true, some 3, 9, some 4⟩ 3 (Or.inr rfl)).1,
   (init_fallthrough ⟨true, some 3, 9, some 4⟩ 3 (Or.inr rfl)).2 (by decide)⟩

/-- C10 (confirmed): for every boot-arg buffer obeying the 100-byte boundary
contract, the computed `argLength` is at most 100, every byte store of the
reconstruction block lands within the 103-byte `bootCommand` buffer, and
the resulting command line is NUL-terminated at index `argLength`. -/
theorem init_reconstruct_safe (frags : List (List Nat))
    (hwf : fragsWellFormed frags) (hlen : (bootBuffer frags).length ≤ 100) :
    argLengthOf frags ≤ 100 ∧
    (∀ i ∈ reconWriteIdxs (argLengthOf frags), i < 103) ∧
    (bootCommand frags).getD (argLengthOf frags) 0 = 0 ∧
    (bootCommand frags).length = 103 := by
  have hal : argLengthOf frags = (bootBuffer frags).length :=
    argLength_eq_length frags hwf
  have h100 : argLengthOf frags ≤ 100 := by omega
  refine ⟨h100, ?_, ?_, ?_⟩
  · intro i hi
    unfold reconWriteIdxs at hi
    by_cases h0 : 0 < argLengthOf frags
    · rw [if_pos h0] at hi
      rcases List.mem_append.mp hi with h | h
      · have := List.mem_range.mp h
        omega
      · have : i = argLengthOf frags := by simpa using h
        omega
    · rw [if_neg h0] at hi
      exact absurd hi (List.not_mem_nil i)
  · rw [bootCommand_getD frags (argLengthOf frags) (by omega),
      if_neg (by omega : ¬ (argLengthOf frags < argLengthOf frags))]
  · simp [bootCommand]

/-- C10, witness: the bounds at the two-fragment example. -/
theorem init_reconstruct_safe_witness :
    argLengthOf exampleFrags ≤ 100 ∧
      (bootCommand exampleFrags).getD (argLengthOf exampleFrags) 0 = 0 :=
  ⟨(init_reconstruct_safe exampleFrags (by decide) (by decide)).1,
   (init_reconstruct_safe exampleFrags (by decide) (by decide)).2.2.1⟩
